import Mathlib

/-!
Verification of the VexFlow MusicXML backend (src/musicxml.js).

The definitions below are a shallow embedding of the source file:
XML DOM nodes become `XmlNode`, JavaScript numbers that may be `NaN`
become `Option Int` (`none` = NaN), fallible code returns `Except MXErr`.
Types of the surrounding VexFlow library that are not part of the source
file (`Vex.Flow.Fraction`, `Vex.Flow.Measure.Part`, …) are modelled from
the specification; their doc comments say so explicitly.
-/

/-- A parsed XML DOM element: tag name, XML attributes (name/value pairs),
text content, and child elements. -/
structure XmlNode where
  name : String
  xmlAttrs : List (String × String)
  text : String
  children : List XmlNode
  deriving Repr

mutual

/-- Descendant elements with the given tag, in document order (the node
itself is excluded) — `getElementsByTagName`. -/
def elemsOfNode (tag : String) : XmlNode → List XmlNode
  | ⟨_, _, _, children⟩ => elemsOfList tag children

/-- Descendant elements with the given tag collected over a node list. -/
def elemsOfList (tag : String) : List XmlNode → List XmlNode
  | [] => []
  | c :: rest =>
    (if c.name = tag then [c] else []) ++ elemsOfNode tag c ++ elemsOfList tag rest
end

def getElems (n : XmlNode) (tag : String) : List XmlNode :=
  elemsOfList tag n.children

/-- `getElementsByTagName(tag)[0]`: the first matching descendant, if any. -/
def getFirst (n : XmlNode) (tag : String) : Option XmlNode :=
  (getElems n tag).head?

/-- `getAttribute(name)`: `none` models the `null` returned for a missing
XML attribute. -/
def getXmlAttr (n : XmlNode) (a : String) : Option String :=
  (n.xmlAttrs.find? (fun p => p.1 = a)).map Prod.snd

/-- A JavaScript number that may be `NaN` (`none`). -/
abbrev NumVal := Option Int

/-- Digits prefix of a character list as a natural number; `none` when the
list does not start with a digit. -/
def leadDigits (cs : List Char) : Option Nat :=
  let ds := cs.takeWhile Char.isDigit
  if ds.isEmpty then none
  else some (ds.foldl (fun a c => a * 10 + (c.toNat - 48)) 0)

/-- JavaScript `parseInt` on a string: skip leading whitespace, optional
sign, then a maximal digit prefix; `NaN` (`none`) when no digits follow. -/
def jsParseInt (s : String) : NumVal :=
  let cs := s.toList.dropWhile (fun c => c = ' ' ∨ c = '\t' ∨ c = '\n' ∨ c = '\r')
  match cs with
  | '-' :: rest => (leadDigits rest).map (fun n => -(n : Int))
  | '+' :: rest => (leadDigits rest).map (fun n => (n : Int))
  | _ => (leadDigits cs).map (fun n => (n : Int))

/-- JavaScript number-to-string coercion (`octave.toString()`),
including `NaN`. -/
def jsNumToString : NumVal → String
  | none => "NaN"
  | some n => toString n

/-- Errors surfaced by the backend.  `typeError` stands for the TypeError a
JavaScript engine raises when a property of `undefined`/`null` is accessed,
`rangeError` for `new Array(n)` with an invalid length; the others are the
`Vex.RERR` / `Vex.Assert` failure codes of the source. -/
inductive MXErr where
  | argumentError
  | typeError
  | rangeError
  | invalidDuration
  | badBeam
  | chordOOB
  deriving Repr, DecidableEq

/-- The `clef` attribute value: either a single scalar clef (possibly the
JavaScript `null` produced by an unrecognized sign/line pair) or a
per-staff array with possibly-missing entries. -/
inductive ClefVal where
  | scalarClef (c : Option String)
  | arrayClef (cs : List (Option String))
  deriving Repr, DecidableEq

/-- One `(measure, part)` attribute snapshot, as built by `parseAttributes`:
each field is `some` exactly when the attributes block declared it
(the declared value itself may be `NaN`, hence the inner `Option`). -/
structure Snapshot where
  key : Option NumVal := none
  time : Option (NumVal × NumVal) := none
  clef : Option ClefVal := none
  divisions : Option NumVal := none
  deriving Repr, DecidableEq

/-- Modelled from the spec: `Vex.Merge(destination, source)` copies every
property present in the source object over the destination, field by field
(later overrides earlier; absent fields are kept). -/
def mergeSnap (a b : Snapshot) : Snapshot where
  key := match b.key with | some v => some v | none => a.key
  time := match b.time with | some v => some v | none => a.time
  clef := match b.clef with | some v => some v | none => a.clef
  divisions := match b.divisions with | some v => some v | none => a.divisions

/-- The `this.attributes` table: measure index → part index → snapshot
(`none` where no attributes block was recorded). -/
abbrev AttrTable := Nat → Nat → Option Snapshot

/-- `getAttributes(m, p)`: merge every recorded snapshot for part `p` at
measures `0..m` inclusive, in measure order. -/
def getAttributesModel (table : AttrTable) (m p : Nat) : Snapshot :=
  (List.range (m + 1)).foldl
    (fun acc i => match table i p with | some s => mergeSnap acc s | none => acc) {}

/-- The value of field `f` in the last snapshot at measures `0..m` of part
`p` that declared it (`none` when no snapshot up to `m` declared it). -/
def fieldLast {α : Type} (f : Snapshot → Option α) (table : AttrTable) (m p : Nat) :
    Option α :=
  (List.range (m + 1)).foldl
    (fun acc i =>
      match table i p with
      | some s => (match f s with | some v => some v | none => acc)
      | none => acc) none

/-- Modelled from the spec: `Vex.Flow.RESOLUTION`, the fixed
ticks-per-whole-note constant of the consuming model (16384). -/
def RESOLUTION : Int := 16384

/-- An exact tick count: a plain integer when the reduced denominator is 1,
otherwise a reduced fraction. -/
inductive TickValue where
  | intTick (n : Int)
  | fracTick (n d : Int)
  deriving Repr, DecidableEq

/-- Modelled from the spec: `Vex.Flow.Fraction(n, d).simplify()` reduces the
fraction to lowest terms (the `RationalDuration` of the data model); per the
spec's duration rule, a non-numeric or zero denominator (divisions absent or
zero) yields a non-numeric result.  `none` components model `NaN`. -/
def fractionSimplify : NumVal → NumVal → NumVal × NumVal
  | some n, some d =>
    if d = 0 then (none, none)
    else
      let g : Int := Int.gcd n d
      (some (n / g), some (d / g))
  | n, d => (n, d)

/-- The decoded note object built up by `parseNote`. -/
structure NoteObj where
  rest : Bool := false
  chord : Bool := false
  keys : Option (List String) := none
  duration : Option String := none
  intrinsicTicks : Option TickValue := none
  tickMultiplier : Option (Int × Int) := none
  tuplet : Option (Int × Int) := none
  tie : Option String := none
  beam : Option String := none
  stem_direction : Option Int := none
  voice : Option Int := none
  stave : Option Int := none
  deriving Repr, DecidableEq

/-- The local `num_notes` / `beats_occupied` variables of `parseNote`, which
hold `null` initially, a DOM element or `undefined` after a
`time-modification` child missing one count, or a parsed number. -/
inductive TMVal where
  | nullv
  | undefv
  | elemv
  | intv (n : NumVal)
  deriving Repr, DecidableEq

/-- The running state of `parseNote`'s forEach over the note's children. -/
structure PNState where
  obj : NoteObj := {}
  nn : TMVal := .nullv
  bo : TMVal := .nullv
  deriving Repr, DecidableEq

/-- The duration-code lookup table of the `type` case. -/
def typeTable : String → Option String
  | "whole" => some "1"
  | "half" => some "2"
  | "quarter" => some "4"
  | "eighth" => some "8"
  | "16th" => some "16"
  | "32nd" => some "32"
  | "64th" => some "64"
  | "128th" => some "128"
  | "256th" => some "256"
  | _ => none

/-- JavaScript string coercion of a possibly-`undefined` value
(`undefined + "r"` is `"undefinedr"`). -/
def jsStrOf : Option String → String
  | none => "undefined"
  | some s => s

/-- `duration.indexOf("r")`: first index of `'r'`, `-1` when absent. -/
def jsIndexOfR (s : String) : Int :=
  match s.toList.findIdx? (fun c => c = 'r') with
  | some i => (i : Int)
  | none => -1

/-- `duration.substring(0, e)`: a negative end index is clamped to 0. -/
def jsTake (s : String) (e : Int) : String :=
  (s.toList.take e.toNat).asString

/-- The default rest position computed at the end of `parseNote` once the
stave and the effective clef are known: for a per-staff clef array the note's
staff indexes the array (an absent staff reads `undefined`); a `"bass"` clef
yields `D/3`, `"treble"` and every other or unknown clef yield `B/4`. -/
def restDefaultKey (clefA : Option ClefVal) (stave : Option Int) : List String :=
  let c : Option String :=
    match clefA with
    | some (.scalarClef c0) => c0
    | some (.arrayClef cs) =>
      match stave with
      | some s => if s < 0 then none else (cs.getD s.toNat none)
      | none => none
    | none => none
  if c = some "bass" then ["D/3"] else ["B/4"]

/-- One step of the inner forEach of the `notations` case: the
`start`/`continue`/`stop` attribute of a nested `tied` element maps to a
`begin`/`continue`/`end` tie state.  For any other attribute value the
source builds `Vex.RERR(...)` WITHOUT `throw new` (unlike every other error
site of the file), so the error value is discarded and decoding continues
with the tie unset; an absent type attribute is `null` and
`null.toString()` raises a TypeError. -/
def ntStep (st2 : PNState) (nel : XmlNode) : Except MXErr PNState :=
  if nel.name = "tied" then
    match getXmlAttr nel "type" with
    | some "start" => .ok { st2 with obj.tie := some "begin" }
    | some "continue" => .ok { st2 with obj.tie := some "continue" }
    | some "stop" => .ok { st2 with obj.tie := some "end" }
    | some _ => .ok st2
    | none => .error .typeError
  else .ok st2

/-- One step of `parseNote`'s forEach over the note element's children
(lines 240-335 of the source). -/
def pnStep (attrs : Snapshot) (st : PNState) (elem : XmlNode) : Except MXErr PNState :=
  match elem.name with
  | "pitch" =>
    match getFirst elem "step" with
    | none => .error .typeError
    | some stepE =>
      match getFirst elem "octave" with
      | none => .error .typeError
      | some octE =>
        let oct := jsParseInt octE.text
        let step :=
          match getFirst elem "alter" with
          | some alterE =>
            match jsParseInt alterE.text with
            | some 1 => stepE.text ++ "#"
            | some 2 => stepE.text ++ "##"
            | some (-1) => stepE.text ++ "b"
            | some (-2) => stepE.text ++ "bb"
            | _ => stepE.text
          | none => stepE.text
        .ok { st with obj.keys := some [step ++ "/" ++ jsNumToString oct] }
  | "type" =>
    let durCode := typeTable elem.text
    let dur := if st.obj.rest then some (jsStrOf durCode ++ "r") else durCode
    .ok { st with obj.duration := dur }
  | "dot" =>
    match st.obj.duration with
    | none => .error .typeError
    | some dur =>
      let dur' :=
        if st.obj.rest then jsTake dur (jsIndexOfR dur) ++ "dr" else dur ++ "d"
      .ok { st with obj.duration := some dur' }
  | "duration" =>
    let num : NumVal := (jsParseInt elem.text).map (fun d => RESOLUTION / 4 * d)
    let den : NumVal := attrs.divisions.join
    match fractionSimplify num den with
    | (some n, some d) =>
      .ok { st with obj.intrinsicTicks := some (if d = 1 then .intTick n else .fracTick n d) }
    | _ => .error .invalidDuration
  | "time-modification" =>
    match getFirst elem "actual-notes", getFirst elem "normal-notes" with
    | some a, some b =>
      .ok { st with nn := .intv (jsParseInt a.text), bo := .intv (jsParseInt b.text) }
    | some _, none => .ok { st with nn := .elemv, bo := .undefv }
    | none, some _ => .ok { st with nn := .undefv, bo := .elemv }
    | none, none => .ok { st with nn := .undefv, bo := .undefv }
  | "rest" =>
    let obj := { st.obj with rest := true }
    match getFirst elem "display-step", getFirst elem "display-octave" with
    | some s, some o => .ok { st with obj := { obj with keys := some [s.text ++ "/" ++ o.text] } }
    | _, _ => .ok { st with obj := obj }
  | "chord" => .ok { st with obj.chord := true }
  | "voice" =>
    match jsParseInt elem.text with
    | some v => .ok { st with obj.voice := some v }
    | none => .ok st
  | "staff" =>
    match jsParseInt elem.text with
    | some v => if v > 0 then .ok { st with obj.stave := some (v - 1) } else .ok st
    | none => .ok st
  | "stem" =>
    if elem.text = "up" then .ok { st with obj.stem_direction := some 1 }
    else if elem.text = "down" then .ok { st with obj.stem_direction := some (-1) }
    else .ok st
  | "beam" =>
    -- Vex.Assert (modelled from the spec: a failed assertion is a fatal format error)
    if elem.text = "begin" ∨ elem.text = "continue" ∨ elem.text = "end" then
      .ok { st with obj.beam := some elem.text }
    else .error .badBeam
  | "notations" => elem.children.foldlM ntStep st
  | _ => .ok st

/-- Truthiness of a `TMVal` (`0` and `NaN` are falsy, a DOM element truthy). -/
def tmTruthy : TMVal → Bool
  | .nullv => false
  | .undefv => false
  | .elemv => true
  | .intv (some n) => n ≠ 0
  | .intv none => false

/-- The tuplet finish of `parseNote` (lines 336-343): if both counts are
truthy, `tickMultiplier = Fraction(beats_occupied, num_notes)` and a tuplet
descriptor `{num_notes, beats_occupied}` is attached, otherwise
`Fraction(1, 1)` and no descriptor.  Once both counts are truthy they are
the parsed integers (a lingering DOM element is always paired with
`undefined`, which is falsy). -/
def finishTuplet : TMVal → TMVal → (Int × Int) × Option (Int × Int)
  | .intv (some a), .intv (some b) =>
    if a ≠ 0 ∧ b ≠ 0 then ((b, a), some (a, b)) else ((1, 1), none)
  | _, _ => ((1, 1), none)

/-- `parseNote(noteElem, attrs)` (lines 237-354 of the source). -/
def parseNote (noteElem : XmlNode) (attrs : Snapshot) : Except MXErr NoteObj := do
  let st ← noteElem.children.foldlM (pnStep attrs) {}
  let (tm, tup) := finishTuplet st.nn st.bo
  let obj := { st.obj with tickMultiplier := some tm, tuplet := tup }
  let obj :=
    if obj.rest ∧ obj.keys = none then
      { obj with keys := some (restDefaultKey attrs.clef obj.stave) }
    else obj
  pure obj

/-- Modelled from the spec: a voice of the external measure model — an
ordered sequence of note events plus the home-staff hint taken from its
first event. -/
structure Voice where
  notes : List NoteObj := []
  stave : Option Int := none
  deriving Repr, DecidableEq

def emptyVoice : Voice := {}

/-- Modelled from the spec: `Vex.Flow.Measure.Part`, the per-part output
object.  Voice slots materialize as empty voices on demand; `numVoices` is
the declared voice count (`setNumberOfVoices`). -/
structure MPart where
  clef : Option String := none
  numStavesP : Option NumVal := none
  staves : List (Option String) := []
  numVoices : Int := 1
  voices : List Voice := [{}]
  deriving Repr, DecidableEq

/-- The voice stored at slot `i` (an untouched slot is an empty voice). -/
def voiceAt (part : MPart) (i : Nat) : Voice :=
  part.voices.getD i emptyVoice

/-- The externally observable voice list: slots `0 ≤ i < numVoices`. -/
def voicesList (part : MPart) : List Voice :=
  (List.range part.numVoices.toNat).map (fun i => voiceAt part i)

/-- Materialize voice slots up to (excluding) `n` as empty voices. -/
def padVoices (l : List Voice) (n : Nat) : List Voice :=
  l ++ List.replicate (n - l.length) emptyVoice

/-- The body of `getMeasure`'s note loop for one decoded note object
(lines 147-161 of the source).  The raw voice id is 0 when the `voice`
field is absent or 0 (a falsy value); a voice id `≥ 1` first grows the
declared voice count to `id + 1`; a negative id crashes when `.notes` of
the `undefined` voice is read.  A chord-flagged object appends its first
key to the last note of its own voice's bucket — reading that last note is
unguarded, so an empty bucket is an out-of-bounds access (`chordOOB`).
`parseNote` only ever sets non-empty key lists, so `keys[0]` is modelled by
the head of the key list. -/
def processNote (part : MPart) (obj : NoteObj) : Except MXErr MPart :=
  let w : Int := obj.voice.getD 0
  let part1 := if 1 ≤ w then { part with numVoices := w + 1 } else part
  if w < 0 then .error .typeError
  else
    let i := w.toNat
    let voices := padVoices part1.voices (i + 1)
    let v0 := voices.getD i emptyVoice
    let v1 := if v0.notes.isEmpty ∧ obj.stave.isSome then { v0 with stave := obj.stave } else v0
    if obj.chord then
      match v1.notes.getLast? with
      | none => .error .chordOOB
      | some lastN =>
        match lastN.keys, obj.keys with
        | some lks, some (k :: _) =>
          .ok { part1 with
                voices := voices.set i
                  { v1 with notes := v1.notes.dropLast ++ [{ lastN with keys := some (lks ++ [k]) }] } }
        | _, _ => .error .typeError
    else
      .ok { part1 with
            voices := voices.set i { v1 with notes := v1.notes ++ [{ obj with voice := none }] } }

/-- The note loop of `getMeasure` over a list of decoded note objects. -/
def processNotes (part : MPart) (objs : List NoteObj) : Except MXErr MPart :=
  objs.foldlM processNote part

/-- The voices kept by the compaction loop: scan the slots
`0..numVoices-1` in ascending order and keep those with a non-empty note
list. -/
def keptVoices (part : MPart) : List Voice :=
  (List.range part.numVoices.toNat).filterMap
    (fun i =>
      let v := voiceAt part i
      if v.notes.isEmpty then none else some v)

/-- The voice-compaction tail of `getMeasure` (lines 162-174): copy the
part that was built, overwrite slots `0..N-1` with the kept voices in
ascending original-slot order, and set the voice count to `N`. -/
def compactPart (part : MPart) : MPart :=
  { part with
    voices := keptVoices part ++ part.voices.drop (keptVoices part).length,
    numVoices := ((keptVoices part).length : Int) }

/-- The measure object returned by `getMeasure` (modelled from the spec:
`Vex.Flow.Measure` stores the time signature and part list it is given). -/
structure VMeasure where
  time : Int × Int
  parts : List MPart
  deriving Repr, DecidableEq

/-- The state built by `parse` (the relevant fields of the backend object):
the timewise measure grid, the per-part stave counts, the attribute
snapshot table and the validity flag.  The sparse JavaScript arrays
`this.measures` / `this.numStaves` become lists of optional slots. -/
structure ParseState where
  measures : List (Option (List XmlNode)) := []
  numStaves : List (Option NumVal) := []
  attributes : AttrTable := fun _ _ => none
  valid : Option Bool := none

/-- Sparse JavaScript array write `arr[i] = v` (holes are `none`). -/
def jsSetSparse {α : Type} (l : List (Option α)) (i : Nat) (v : α) : List (Option α) :=
  if i < l.length then l.set i (some v)
  else l ++ List.replicate (i - l.length) none ++ [some v]

/-- Update the snapshot table at `(m, p)`. -/
def updTable (t : AttrTable) (m p : Nat) (s : Snapshot) : AttrTable :=
  fun m' p' => if m' = m ∧ p' = p then some s else t m' p'

/-- Read-modify-write of the `(m, p)` snapshot. -/
def setSnapField (st : ParseState) (m p : Nat) (f : Snapshot → Snapshot) : ParseState :=
  { st with attributes := updTable st.attributes m p (f ((st.attributes m p).getD {})) }

/-- Sparse array write into a per-staff clef array (`attrObject[number-1]`). -/
def clefArrSet (l : List (Option String)) (i : Nat) (v : Option String) :
    List (Option String) :=
  if i < l.length then l.set i v
  else l ++ List.replicate (i - l.length) none ++ [v]

/-- One child of an `attributes` element (the switch of `parseAttributes`,
lines 179-235).  `staves` only takes effect at measure 0 and is stored in
`numStaves`, not in the snapshot (the source also stores a `staves: null`
snapshot property, which no reader ever consults, so it is not modelled).
A missing `fifths`/`beats`/`beat-type`/`sign`/`line` child crashes, as the
source dereferences the absent element; `new Array` of a negative or `NaN`
stave count raises a RangeError. -/
def paStep (m p : Nat) (st : ParseState) (attr : XmlNode) : Except MXErr ParseState :=
  match attr.name with
  | "staves" =>
    .ok (if m = 0 then { st with numStaves := jsSetSparse st.numStaves p (jsParseInt attr.text) }
         else st)
  | "key" =>
    match getFirst attr "fifths" with
    | none => .error .typeError
    | some fe => .ok (setSnapField st m p (fun s => { s with key := some (jsParseInt fe.text) }))
  | "time" =>
    match getFirst attr "beats" with
    | none => .error .typeError
    | some be =>
      match getFirst attr "beat-type" with
      | none => .error .typeError
      | some te =>
        .ok (setSnapField st m p
          (fun s => { s with time := some (jsParseInt be.text, jsParseInt te.text) }))
  | "clef" =>
    let number := (getXmlAttr attr "number").bind jsParseInt
    match getFirst attr "sign" with
    | none => .error .typeError
    | some se =>
      match getFirst attr "line" with
      | none => .error .typeError
      | some le =>
        let line := jsParseInt le.text
        let cval : Option String :=
          if se.text = "G" ∧ line = some 2 then some "treble"
          else if se.text = "F" ∧ line = some 4 then some "bass"
          else none
        match number with
        | some nn =>
          if nn > 0 then
            let base : Except MXErr (List (Option String)) :=
              match (st.attributes m p).bind Snapshot.clef with
              | some (.arrayClef cs) => .ok cs
              | _ =>
                match st.numStaves.getD p none with
                | some (some k) => if k < 0 then .error .rangeError
                                   else .ok (List.replicate k.toNat none)
                | some none => .error .rangeError
                | none => .ok [none]
            match base with
            | .error e => .error e
            | .ok cs =>
              .ok (setSnapField st m p
                (fun s => { s with clef := some (.arrayClef (clefArrSet cs (nn - 1).toNat cval)) }))
          else .ok (setSnapField st m p (fun s => { s with clef := some (.scalarClef cval) }))
        | none => .ok (setSnapField st m p (fun s => { s with clef := some (.scalarClef cval) }))
  | "divisions" =>
    .ok (setSnapField st m p (fun s => { s with divisions := some (jsParseInt attr.text) }))
  | _ => .ok st

/-- `parseAttributes(measureNum, partNum, attributes)`. -/
def parseAttributesModel (st : ParseState) (m p : Nat) (attrElem : XmlNode) :
    Except MXErr ParseState :=
  attrElem.children.foldlM (paStep m p) st

/-- The inner measure loop of `parse` for one part (lines 80-94): `j` is the
raw child index, `measureNum` counts the measure children seen so far.  A
row is created when slot `j` (sic — not `measureNum`) of the grid is
unassigned; a row whose current length differs from the part index marks
the document invalid and halts the whole scan (the `Bool` of the result).
Reading an unassigned row crashes (`undefined.length`). -/
def scanMeasures (partNum : Nat) (st : ParseState) (j measureNum : Nat) :
    List XmlNode → Except MXErr (ParseState × Bool)
  | [] => .ok (st, false)
  | c :: rest =>
    if c.name ≠ "measure" then scanMeasures partNum st (j + 1) measureNum rest
    else
      let st1 :=
        if (st.measures.getD j none).isSome then st
        else { st with measures := jsSetSparse st.measures measureNum [] }
      match st1.measures.getD measureNum none with
      | none => .error .typeError
      | some row =>
        if row.length ≠ partNum then .ok ({ st1 with valid := some false }, true)
        else
          let st2 := { st1 with measures := jsSetSparse st1.measures measureNum (row ++ [c]) }
          match (getElems c "attributes").head? with
          | some a =>
            match parseAttributesModel st2 measureNum partNum a with
            | .error e => .error e
            | .ok st3 => scanMeasures partNum st3 (j + 1) (measureNum + 1) rest
          | none => scanMeasures partNum st2 (j + 1) (measureNum + 1) rest

/-- The outer part loop of `parse` (lines 76-102): after each part, its
stave count defaults to 1 if never set; when the full scan completes, the
validity flag is set to true. -/
def scanParts (st : ParseState) (partNum : Nat) : List XmlNode → Except MXErr ParseState
  | [] => .ok { st with valid := some true }
  | c :: rest =>
    if c.name = "part" then
      match scanMeasures partNum st 0 0 c.children with
      | .error e => .error e
      | .ok (st1, true) => .ok st1
      | .ok (st1, false) =>
        let st2 :=
          if (st1.numStaves.getD partNum none).isSome then st1
          else { st1 with numStaves := jsSetSparse st1.numStaves partNum (some 1) }
        scanParts st2 (partNum + 1) rest
    else scanParts st partNum rest

/-- `parse(data)` for an already-parsed document tree (lines 49-103): a
non-partwise root is rejected with an argument error; otherwise the
timewise grid is built part by part. -/
def parseModel (root : XmlNode) : Except MXErr ParseState :=
  if root.name ≠ "score-partwise" then .error .argumentError
  else scanParts {} 0 root.children

/-- The validity flag of a parse outcome. -/
def validOf : Except MXErr ParseState → Option Bool
  | .ok st => st.valid
  | .error _ => none

/-- The number of `measure` children of each `part` child of the root, in
document order. -/
def partMeasureCounts (root : XmlNode) : List Nat :=
  (root.children.filter (fun c => c.name = "part")).map
    (fun p => (p.children.filter (fun c => c.name = "measure")).length)

/-- The per-part body of `getMeasure` (lines 131-174): effective
attributes, part options (scalar clef only when it is a string — the
`null` clef of an unrecognized sign/line pair has type "object"), stave
count and per-staff clefs for an array clef, then the note loop and voice
compaction. -/
def buildPart (st : ParseState) (m p : Nat) (measureElem : XmlNode) : Except MXErr MPart := do
  let attrs := getAttributesModel st.attributes m p
  let partClef : Option String :=
    match attrs.clef with
    | some (.scalarClef (some c)) => some c
    | _ => none
  let nSt : Option NumVal := st.numStaves.getD p none
  let staveLoopBound : Nat :=
    match nSt with
    | some (some k) => k.toNat
    | _ => 0
  let stavesL : List (Option String) :=
    match attrs.clef with
    | some (.arrayClef cs) => (List.range staveLoopBound).map (fun s => cs.getD s none)
    | _ => []
  let part0 : MPart :=
    { clef := partClef, numStavesP := nSt, staves := stavesL, numVoices := 1, voices := [{}] }
  let part1 ← (getElems measureElem "note").foldlM
    (fun pt ne => do
      let obj ← parseNote ne attrs
      processNote pt obj)
    part0
  pure (compactPart part1)

/-- `getMeasure(m)` (lines 126-177): the time signature is the fixed
4/4 default, each part slot of row `m` is materialized via `buildPart`.
An out-of-range or unassigned row crashes (`undefined.length`). -/
def getMeasureModel (st : ParseState) (m : Nat) : Except MXErr VMeasure := do
  match st.measures.getD m none with
  | none => .error .typeError
  | some row =>
    let parts ← (List.range row.length).mapM
      (fun p => buildPart st m p (row.getD p ⟨"", [], "", []⟩))
    pure { time := (4, 4), parts := parts }

/-- An element with children and no text. -/
def mkE (n : String) (ch : List XmlNode) : XmlNode := ⟨n, [], "", ch⟩

/-- A leaf element with text content. -/
def mkT (n t : String) : XmlNode := ⟨n, [], t, []⟩

/-- A two-part score whose second part has one fewer measure than the
first. -/
def shortPartDoc : XmlNode :=
  mkE "score-partwise"
    [mkE "part" [mkE "measure" [], mkE "measure" []],
     mkE "part" [mkE "measure" []]]

/-- A note whose nested `notations/tied` element carries the given type
attribute. -/
def tieNote (ty : String) : XmlNode :=
  mkE "note" [mkE "notations" [⟨"tied", [("type", ty)], "", []⟩]]

/-- A note with a `beam` child carrying the given token. -/
def beamNote (b : String) : XmlNode := mkE "note" [mkT "beam" b]

/-- A note element whose only child is a raw `duration` integer. -/
def durNote (s : String) : XmlNode := mkE "note" [mkT "duration" s]

/-- Modelled from the spec: the exact-ticks rule of the Note Decoder —
"computed as the reduced fraction (RESOLUTION/4 × rawDuration) / divisions
... Fails with an invalid-duration error if either the computed numerator
or denominator is not a number (e.g. divisions absent or zero).
Degenerates to a plain integer when the reduced denominator is 1."  The
inputs are the parsed raw duration and the effective divisions value
(`none` = NaN/absent). -/
def specTicks : NumVal → NumVal → Except MXErr TickValue
  | some d, some v =>
    if v = 0 then .error .invalidDuration
    else
      let n := RESOLUTION / 4 * d
      let g : Int := Int.gcd n v
      if v / g = 1 then .ok (.intTick (n / g)) else .ok (.fracTick (n / g) (v / g))
  | _, _ => .error .invalidDuration

/-- A note element with a `time-modification` child carrying both counts. -/
def tmNote (a n : String) : XmlNode :=
  mkE "note" [mkE "time-modification" [mkT "actual-notes" a, mkT "normal-notes" n]]

/-- A note whose `time-modification` child misses the normal-notes count. -/
def tmNoteActualOnly (a : String) : XmlNode :=
  mkE "note" [mkE "time-modification" [mkT "actual-notes" a]]

/-- A bare note element with no children. -/
def plainNote : XmlNode := mkE "note" []

/-- A note whose only child is a rest element, optionally carrying an
explicit display step/octave pair. -/
def restNote (disp : Option (String × String)) : XmlNode :=
  mkE "note"
    [mkE "rest"
      (match disp with
       | some (s, o) => [mkT "display-step" s, mkT "display-octave" o]
       | none => [])]

/-- A rest note that also carries a `staff` child with the given text. -/
def restNoteStaff (stv : String) : XmlNode :=
  mkE "note" [mkE "rest" [], mkT "staff" stv]

/-- The staff index the `staff` case of `parseNote` decodes from the child's
text: 1-based in the source, converted to 0-based; a non-numeric or
non-positive value leaves the staff unset. -/
def staffIndex (s : String) : Option Int :=
  match jsParseInt s with
  | some v => if v > 0 then some (v - 1) else none
  | none => none

/-- A minimal ingested state: one part with one empty measure, whose
snapshot table records a 3/4 time attribute at measure 0. -/
def exTimeState : ParseState :=
  { measures := [some [mkE "measure" []]],
    numStaves := [some (some 1)],
    attributes := fun m p =>
      if m = 0 ∧ p = 0 then some { time := some (some 3, some 4) } else none,
    valid := some true }

/-- The measure materialized from `exTimeState`. -/
def exTimeMeasure : VMeasure :=
  match getMeasureModel exTimeState 0 with
  | .ok mm => mm
  | .error _ => ⟨(0, 0), []⟩

/-- A voice holding one concrete note. -/
def oneNoteVoice (k : String) : Voice :=
  { notes := [{ keys := some [k] }], stave := none }

/-- A part with raw voice ids 0, 2, 5 each holding one note, id 1 an empty
voice, and ids 3, 4 untouched slots. -/
def exSparsePart : MPart :=
  { numVoices := 6,
    voices := [oneNoteVoice "C/4", {}, oneNoteVoice "D/4", {}, {}, oneNoteVoice "E/4"] }

/-- `true` exactly on a successful outcome. -/
def exceptOk {α : Type} : Except MXErr α → Bool
  | .ok _ => true
  | .error _ => false

/-- The successful outcome, or the fallback on an error. -/
def exceptGet {α : Type} : Except MXErr α → α → α
  | .ok x, _ => x
  | .error _, d => d

/-- A one-voice part whose bucket 0 already holds one non-chord note. -/
def exChordPart : MPart :=
  { numVoices := 1, voices := [{ notes := [{ keys := some ["C/4"] }], stave := none }] }

/-- A decoded chord-continuation object with a single pitch key. -/
def exChordObj : NoteObj := { chord := true, keys := some ["E/4"] }

/-- A note element carrying the chord marker. -/
def chordElem : XmlNode :=
  mkE "note" [mkE "pitch" [mkT "step" "E", mkT "octave" "4"], mkE "chord" []]

/-- The decode of `chordElem`. -/
def exChordDecoded : NoteObj :=
  match parseNote chordElem {} with
  | .ok o => o
  | .error _ => {}

/-- The fresh part state at the start of the note loop: one declared voice
and an empty bucket. -/
def freshPart : MPart := {}

/-- A decoded non-chord note (as used by the witness instances). -/
def exLeadObj : NoteObj := { keys := some ["C/4"] }

/-- A decoded chord-continuation note. -/
def exFollowObj : NoteObj := { chord := true, keys := some ["E/4"] }

theorem fold_field_comm {α : Type} (f : Snapshot → Option α) (table : AttrTable) (p : Nat)
    (hcomm : ∀ a b, f (mergeSnap a b) = (match f b with | some v => some v | none => f a)) :
    ∀ (l : List Nat) (acc : Snapshot),
      f (l.foldl (fun a i => match table i p with | some s => mergeSnap a s | none => a) acc) =
        l.foldl
          (fun a i =>
            match table i p with
            | some s => (match f s with | some v => some v | none => a)
            | none => a) (f acc) := by
  intro l
  induction l with
  | nil => intro acc; rfl
  | cons i rest ih =>
    intro acc
    simp only [List.foldl_cons]
    rcases h : table i p with _ | s
    · exact ih acc
    · rw [ih (mergeSnap acc s), hcomm]

theorem getAttributes_field {α : Type} (f : Snapshot → Option α) (table : AttrTable)
    (m p : Nat) (hinit : f {} = none)
    (hcomm : ∀ a b, f (mergeSnap a b) = (match f b with | some v => some v | none => f a)) :
    f (getAttributesModel table m p) = fieldLast f table m p := by
  unfold getAttributesModel fieldLast
  rw [fold_field_comm f table p hcomm, hinit]

/-- Claim C3: for every measure index `m` and part index `p`, the effective
attributes returned by `getAttributes` are the left-to-right merge of every
stored snapshot for part `p` at measures `0..m`, later snapshots overriding
earlier ones field by field: each of the four snapshot fields equals the
value declared by the last snapshot at a measure `≤ m` that set it
(inheritance when no later snapshot re-declares it, override from the
re-declaring measure onward). -/
theorem C3_attribute_merge (table : AttrTable) (m p : Nat) :
    (getAttributesModel table m p).key = fieldLast Snapshot.key table m p ∧
    (getAttributesModel table m p).time = fieldLast Snapshot.time table m p ∧
    (getAttributesModel table m p).clef = fieldLast Snapshot.clef table m p ∧
    (getAttributesModel table m p).divisions = fieldLast Snapshot.divisions table m p := by
  refine ⟨?_, ?_, ?_, ?_⟩
  · exact getAttributes_field _ table m p rfl
      (fun a b => by cases h : b.key <;> simp [mergeSnap, h])
  · exact getAttributes_field _ table m p rfl
      (fun a b => by cases h : b.time <;> simp [mergeSnap, h])
  · exact getAttributes_field _ table m p rfl
      (fun a b => by cases h : b.clef <;> simp [mergeSnap, h])
  · exact getAttributes_field _ table m p rfl
      (fun a b => by cases h : b.divisions <;> simp [mergeSnap, h])

/-- Claim C1: the spec requires the validity flag to end up true iff every
part supplies the same number of measures, and in particular that a
two-part document whose part 2 has one fewer measure than part 1 is
reported invalid.  The mismatch check of `parse`
(`this.measures[measureNum].length != partNum`) only fires when a part
reaches a measure position some earlier part lacked, so a trailing part
that is short is never detected: on the concrete two-part document with
measure counts `[2, 1]` the flag ends up `true`. -/
theorem C1_short_part_reported_valid :
    partMeasureCounts shortPartDoc = [2, 1] ∧
      validOf (parseModel shortPartDoc) = some true :=
  ⟨rfl, rfl⟩

/-- Claim C2: `tied` types start/continue/stop do map to begin/continue/end
and an unrecognized beam token is a surfaced `badBeam` error, but an
unrecognized `tied` type does NOT fail: line 327 of the source calls
`Vex.RERR(...)` without `throw new` (every other error site of the file
throws), so the constructed error is discarded and decoding succeeds with
the tie left unset — here on the concrete type `"hold"`. -/
theorem C2_bad_tie_swallowed :
    (parseNote (tieNote "start") {}).toOption.map NoteObj.tie = some (some "begin") ∧
    (parseNote (tieNote "continue") {}).toOption.map NoteObj.tie = some (some "continue") ∧
    (parseNote (tieNote "stop") {}).toOption.map NoteObj.tie = some (some "end") ∧
    parseNote (beamNote "flat") {} = .error .badBeam ∧
    (parseNote (tieNote "hold") {}).toOption.map NoteObj.tie = some none :=
  ⟨rfl, rfl, rfl, rfl, rfl⟩

/-- Claim C5 counterexample: the claim's example demands that with
divisions=4 and raw duration 4 the result be the integer RESOLUTION; the
decoder instead yields the integer RESOLUTION/4 = 4096 (it is a quarter
note), so the stated example is false. -/
theorem C5_counterexample :
    (parseNote (durNote "4") { divisions := some (some 4) }).toOption.map
        NoteObj.intrinsicTicks = some (some (.intTick (RESOLUTION / 4))) ∧
    ¬ ((parseNote (durNote "4") { divisions := some (some 4) }).toOption.map
        NoteObj.intrinsicTicks = some (some (.intTick RESOLUTION))) := by
  exact ⟨rfl, by decide⟩

/-- Claim C5 (amended): for every raw duration string and effective
divisions value, decoding a duration element agrees exactly with the
spec's tick rule `specTicks` — the reduced fraction
(RESOLUTION/4 × rawDuration) / divisions, an invalid-duration error exactly
when numerator or denominator is non-numeric (divisions absent, or zero —
modelled per the spec), and a plain integer when the reduced denominator is
1 — and the claim's example with divisions=4, raw duration 4 yields the
integer RESOLUTION/4 (not RESOLUTION). -/
theorem C5_duration_ticks :
    (∀ (s : String) (dv : Option NumVal),
      parseNote (durNote s) { divisions := dv } =
        (specTicks (jsParseInt s) dv.join).map
          (fun t => { intrinsicTicks := some t, tickMultiplier := some (1, 1) })) ∧
    parseNote (durNote "4") { divisions := some (some 4) } =
      .ok { intrinsicTicks := some (.intTick (RESOLUTION / 4)),
            tickMultiplier := some (1, 1) } := by
  constructor
  · intro s dv
    simp only [parseNote, durNote, mkE, mkT, List.foldlM, pnStep, specTicks,
      fractionSimplify]
    rcases hd : jsParseInt s with _ | d
    · rcases dv with _ | nv
      · rfl
      · rcases nv with _ | v <;> rfl
    · rcases dv with _ | nv
      · rfl
      · rcases nv with _ | v
        · rfl
        · by_cases hv : v = 0
          · simp [hv]
            rfl
          · by_cases hg : v / ((RESOLUTION / 4 * d).gcd v : Int) = 1 <;>
              simp [hv, hg] <;> rfl
  · rfl

/-- Claim C6 counterexample: a `time-modification` child supplying
actual-notes = 0 and normal-notes = 2 supplies both counts, yet — 0 being
falsy in the `if (num_notes && beats_occupied)` test — the decoder attaches
NO tuplet descriptor and leaves the tick multiplier at 1/1, where the claim
demands an attached descriptor {actualNotes, normalNotes}. -/
theorem C6_counterexample :
    (parseNote (tmNote "0" "2") {}).toOption.map NoteObj.tuplet = some none ∧
    ¬ ((parseNote (tmNote "0" "2") {}).toOption.map NoteObj.tuplet
        = some (some (0, 2))) ∧
    (parseNote (tmNote "0" "2") {}).toOption.map NoteObj.tickMultiplier
      = some (some (1, 1)) :=
  ⟨rfl, by decide, rfl⟩

/-- Claim C6 (amended): when a `time-modification` child supplies both an
actual-notes and a normal-notes count and both parse to nonzero numbers,
the tick multiplier is the exact rational normalNotes/actualNotes (the
fraction pair `(normal, actual)`; e.g. 3:2 gives exactly 2/3) and a tuplet
descriptor `(actual, normal)` is attached; otherwise — both counts absent,
one count missing, or either count zero or non-numeric — the multiplier is
exactly 1/1 and no descriptor is attached. -/
theorem C6_tuplet_ratio :
    (∀ a n : String,
      parseNote (tmNote a n) {} =
        .ok { tickMultiplier :=
                some (finishTuplet (.intv (jsParseInt a)) (.intv (jsParseInt n))).1,
              tuplet := (finishTuplet (.intv (jsParseInt a)) (.intv (jsParseInt n))).2 }) ∧
    (∀ a n : Int,
      finishTuplet (.intv (some a)) (.intv (some n)) =
        if a ≠ 0 ∧ n ≠ 0 then ((n, a), some (a, n)) else ((1, 1), none)) ∧
    parseNote (tmNote "3" "2") {} =
      .ok { tickMultiplier := some (2, 3), tuplet := some (3, 2) } ∧
    parseNote plainNote {} = .ok { tickMultiplier := some (1, 1), tuplet := none } ∧
    parseNote (tmNoteActualOnly "3") {} =
      .ok { tickMultiplier := some (1, 1), tuplet := none } := by
  exact ⟨fun a n => rfl, fun a n => rfl, rfl, rfl, rfl⟩

/-- Claim C8: a decoded rest note has its rest flag set; explicit display
step/octave are used verbatim as its key, and otherwise the default
position is assigned once the staff and effective clef are known — `D/3`
exactly when the clef in force is `"bass"`, and `B/4` for `"treble"` or
any other or unknown clef (including a scalar `null` clef, no clef at all,
and a per-staff clef array indexed by an absent staff).  For a rest
carrying a `staff` child, the decoded staff index selects the entry of a
per-staff clef array: the default is `D/3` exactly when that entry is
`"bass"` (out-of-range or missing entries read as unknown), as in the
closing concrete case of a rest on the bass staff of a two-staff part. -/
theorem C8_rest_default_position :
    (∀ (disp : Option (String × String)) (clefA : Option ClefVal),
      parseNote (restNote disp) { clef := clefA } =
        .ok { rest := true,
              keys := some
                (match disp with
                 | some (s, o) => [s ++ "/" ++ o]
                 | none => restDefaultKey clefA none),
              tickMultiplier := some (1, 1) }) ∧
    (∀ (c : Option String) (stv : Option Int),
      restDefaultKey (some (.scalarClef c)) stv =
        if c = some "bass" then ["D/3"] else ["B/4"]) ∧
    (∀ stv : Option Int, restDefaultKey none stv = ["B/4"]) ∧
    (∀ cs : List (Option String), restDefaultKey (some (.arrayClef cs)) none = ["B/4"]) ∧
    (∀ (stv : String) (clefA : Option ClefVal),
      parseNote (restNoteStaff stv) { clef := clefA } =
        .ok { rest := true, stave := staffIndex stv,
              keys := some (restDefaultKey clefA (staffIndex stv)),
              tickMultiplier := some (1, 1) }) ∧
    (∀ (cs : List (Option String)) (s : Int),
      restDefaultKey (some (.arrayClef cs)) (some s) =
        if 0 ≤ s ∧ cs.getD s.toNat none = some "bass" then ["D/3"] else ["B/4"]) ∧
    parseNote (restNoteStaff "2")
        { clef := some (.arrayClef [some "treble", some "bass"]) } =
      .ok { rest := true, stave := some 1, keys := some ["D/3"],
            tickMultiplier := some (1, 1) } := by
  refine ⟨?_, fun c stv => rfl, fun stv => rfl, fun cs => rfl, ?_, ?_, rfl⟩
  · intro disp clefA
    rcases disp with _ | ⟨s, o⟩ <;> rfl
  · intro stv clefA
    simp only [parseNote, restNoteStaff, mkE, mkT, List.foldlM, pnStep, staffIndex]
    rcases h : jsParseInt stv with _ | v
    · rfl
    · simp only []
      by_cases hv : v > 0
      · simp only [if_pos hv]
        rfl
      · simp only [if_neg hv]
        rfl
  · intro cs s
    by_cases hs : s < 0
    · have hs' : ¬ (0 ≤ s) := not_le.mpr hs
      simp [restDefaultKey, hs, hs']
    · have hs0 : 0 ≤ s := not_lt.mp hs
      by_cases hb : cs.getD s.toNat none = some "bass" <;>
        simp [restDefaultKey, hs, hb, hs0]

/-- Claim C9: for every ingested state (including states whose snapshot
table records arbitrary `time` attributes) and every measure index, the
measure object produced by `getMeasure` carries the fixed time signature
{num_beats: 4, beat_value: 4} — the stored time attribute does not feed
into measure construction. -/
theorem C9_measure_time_fixed (st : ParseState) (m : Nat) (meas : VMeasure)
    (h : getMeasureModel st m = .ok meas) : meas.time = (4, 4) := by
  unfold getMeasureModel at h
  rcases hr : st.measures.getD m none with _ | row <;> rw [hr] at h
  · cases h
  · rcases hp : (List.range row.length).mapM
        (fun p => buildPart st m p (row.getD p ⟨"", [], "", []⟩)) with e | ps <;>
      simp only [bind, Except.bind, hp] at h
    · cases h
    · injection h with h
      subst h
      rfl

theorem C9_measure_time_fixed_witness :
    getMeasureModel exTimeState 0 = .ok exTimeMeasure ∧ exTimeMeasure.time = (4, 4) :=
  ⟨rfl, C9_measure_time_fixed exTimeState 0 exTimeMeasure rfl⟩

theorem filterMap_if_eq_filter_map {α β : Type} (l : List α) (f : α → β) (p : β → Bool) :
    (l.filterMap fun a => if p (f a) then none else some (f a)) =
      (l.map f).filter (fun b => !p b) := by
  induction l with
  | nil => rfl
  | cons a t ih =>
    simp only [List.filterMap_cons, List.map_cons, List.filter_cons]
    cases hp : p (f a) <;> simp [hp, ih]

theorem range_map_getD_append {α : Type} (l rest : List α) (d : α) :
    (List.range l.length).map (fun i => (l ++ rest).getD i d) = l := by
  apply List.ext_getElem
  · simp
  · intro i h1 h2
    simp only [List.getElem_map, List.getElem_range]
    rw [List.getD_append _ _ _ _ h2, List.getD_eq_getElem _ _ h2]

/-- Claim C7: voice compaction renumbers the raw (possibly sparse) voice
slots to a dense `0..N-1` ordering by scanning the raw slots in ascending
numeric order, skipping every slot whose note sequence is empty, and
preserving the relative order and the full contents (including the staff
hint) of the remaining voices — the compacted voice list is exactly the
filter of the raw voice list by non-emptiness.  In particular raw ids
{0, 2, 5} each holding one note and id 1 with zero notes compact to exactly
3 voices in ascending original order with id 1 dropped. -/
theorem C7_voice_compaction :
    (∀ part : MPart,
      voicesList (compactPart part) =
        (voicesList part).filter (fun v => !v.notes.isEmpty) ∧
      (compactPart part).numVoices =
        (((voicesList part).filter (fun v => !v.notes.isEmpty)).length : Int)) ∧
    voicesList (compactPart exSparsePart) =
      [oneNoteVoice "C/4", oneNoteVoice "D/4", oneNoteVoice "E/4"] := by
  have hkept : ∀ part : MPart,
      keptVoices part = (voicesList part).filter (fun v => !v.notes.isEmpty) := by
    intro part
    have h := filterMap_if_eq_filter_map (List.range part.numVoices.toNat)
      (fun i => voiceAt part i) (fun v => v.notes.isEmpty)
    simpa [keptVoices, voicesList] using h
  constructor
  · intro part
    have h1 : voicesList (compactPart part) = keptVoices part := by
      unfold voicesList compactPart voiceAt
      simp only [Int.toNat_natCast]
      exact range_map_getD_append _ _ _
    exact ⟨by rw [h1, hkept], by simp [compactPart, hkept part]⟩
  · rfl

theorem except_bind_ok {α β : Type} (x : α) (f : α → Except MXErr β) :
    (Except.ok x >>= f) = f x := rfl

theorem except_bind_error {α β : Type} (e : MXErr) (f : α → Except MXErr β) :
    ((Except.error e : Except MXErr α) >>= f) = .error e := rfl

theorem padVoices_length (l : List Voice) (n : Nat) :
    (padVoices l n).length = max l.length n := by
  simp only [padVoices, List.length_append, List.length_replicate]
  omega

theorem getD_padVoices (l : List Voice) (n u : Nat) :
    (padVoices l n).getD u emptyVoice = l.getD u emptyVoice := by
  unfold padVoices
  rcases Nat.lt_or_ge u l.length with h1 | h1
  · rw [List.getD_append _ _ _ _ h1]
  · rw [List.getD_append_right _ _ _ _ h1, List.getD_eq_default _ _ h1,
      List.getD_eq_getD_get?]
    simp [List.get?_eq_getElem?]

theorem getD_set_self_voice (l : List Voice) (i : Nat) (v : Voice) (h : i < l.length) :
    (l.set i v).getD i emptyVoice = v := by
  rw [List.getD_eq_getElem _ _ (by simpa using h)]
  exact List.getElem_set_self (by simpa using h)

theorem getD_set_ne_voice (l : List Voice) (i u : Nat) (v : Voice) (h : u ≠ i) :
    (l.set i v).getD u emptyVoice = l.getD u emptyVoice := by
  rcases Nat.lt_or_ge u l.length with h1 | h1
  · rw [List.getD_eq_getElem _ _ (by simpa using h1), List.getD_eq_getElem _ _ h1]
    exact List.getElem_set_ne (Ne.symm h) (by simpa using h1)
  · rw [List.getD_eq_default _ _ (by simpa using h1), List.getD_eq_default _ _ h1]

theorem ntStep_obj_chord (st2 : PNState) (nel : XmlNode) (st' : PNState)
    (h : ntStep st2 nel = .ok st') : st'.obj.chord = st2.obj.chord := by
  unfold ntStep at h
  repeat' split at h
  all_goals try exact Except.noConfusion h
  all_goals try injection h with h
  all_goals try subst h
  all_goals rfl

theorem ntFold_obj_chord (l : List XmlNode) : ∀ (st2 st' : PNState),
    l.foldlM ntStep st2 = .ok st' → st'.obj.chord = st2.obj.chord := by
  induction l with
  | nil =>
    intro st2 st' h
    injection h with h
    subst h
    rfl
  | cons a t ih =>
    intro st2 st' h
    rw [List.foldlM_cons] at h
    rcases hs : ntStep st2 a with e | st1 <;> rw [hs] at h
    · rw [except_bind_error] at h
      cases h
    · rw [except_bind_ok] at h
      rw [ih st1 st' h, ntStep_obj_chord st2 a st1 hs]

theorem pnStep_chord_mono (attrs : Snapshot) (st : PNState) (e : XmlNode) (st' : PNState)
    (h : pnStep attrs st e = .ok st') (hc : st.obj.chord = true) : st'.obj.chord = true := by
  unfold pnStep at h
  try simp only [] at h
  repeat' split at h
  all_goals try exact Except.noConfusion h
  all_goals try injection h with h
  all_goals try subst h
  all_goals try rfl
  all_goals try exact hc
  all_goals rw [ntFold_obj_chord _ _ _ h]
  all_goals exact hc

theorem pnStep_chord_set (attrs : Snapshot) (st : PNState) (e : XmlNode) (st' : PNState)
    (hn : e.name = "chord") (h : pnStep attrs st e = .ok st') : st'.obj.chord = true := by
  unfold pnStep at h
  rw [hn] at h
  simp only [] at h
  injection h with h
  subst h
  rfl

theorem pnFold_chord_mono (attrs : Snapshot) (l : List XmlNode) : ∀ (st st' : PNState),
    l.foldlM (pnStep attrs) st = .ok st' → st.obj.chord = true → st'.obj.chord = true := by
  induction l with
  | nil =>
    intro st st' h hc
    injection h with h
    subst h
    exact hc
  | cons a t ih =>
    intro st st' h hc
    rw [List.foldlM_cons] at h
    rcases hs : pnStep attrs st a with e | st1 <;> rw [hs] at h
    · rw [except_bind_error] at h
      cases h
    · rw [except_bind_ok] at h
      exact ih st1 st' h (pnStep_chord_mono attrs st a st1 hs hc)

theorem pnFold_chord_mem (attrs : Snapshot) (l : List XmlNode) : ∀ (st st' : PNState),
    "chord" ∈ l.map XmlNode.name → l.foldlM (pnStep attrs) st = .ok st' →
    st'.obj.chord = true := by
  induction l with
  | nil =>
    intro st st' hm _
    simp at hm
  | cons a t ih =>
    intro st st' hm h
    rw [List.foldlM_cons] at h
    rcases hs : pnStep attrs st a with e | st1 <;> rw [hs] at h
    · rw [except_bind_error] at h
      cases h
    · rw [except_bind_ok] at h
      have hm' : "chord" = a.name ∨ ∃ b ∈ t, b.name = "chord" := by simpa using hm
      rcases hm' with hh | ⟨b, hb, hbn⟩
      · exact pnFold_chord_mono attrs t st1 st' h
          (pnStep_chord_set attrs st a st1 hh.symm hs)
      · exact ih st1 st' (List.mem_map.mpr ⟨b, hb, hbn⟩) h

theorem parseNote_chord_flag (elem : XmlNode) (attrs : Snapshot) (obj : NoteObj)
    (hm : "chord" ∈ elem.children.map XmlNode.name)
    (h : parseNote elem attrs = .ok obj) : obj.chord = true := by
  unfold parseNote at h
  rcases hf : elem.children.foldlM (pnStep attrs) {} with e | st' <;> rw [hf] at h
  · rw [except_bind_error] at h
    cases h
  · rw [except_bind_ok] at h
    have hc := pnFold_chord_mem attrs elem.children {} st' hm hf
    injection h with h
    subst h
    split <;> exact hc

theorem processNote_chord_ok (part : MPart) (obj : NoteObj) (k : String) (ks : List String)
    (pre : List NoteObj) (lastN : NoteObj) (lks : List String)
    (hchord : obj.chord = true) (hkeys : obj.keys = some (k :: ks))
    (hw : 0 ≤ obj.voice.getD 0)
    (hb : (voiceAt part (obj.voice.getD 0).toNat).notes = pre ++ [lastN])
    (hlk : lastN.keys = some lks) :
    processNote part obj =
      .ok { (if 1 ≤ obj.voice.getD 0 then { part with numVoices := obj.voice.getD 0 + 1 }
             else part) with
            voices :=
              (padVoices part.voices ((obj.voice.getD 0).toNat + 1)).set
                (obj.voice.getD 0).toNat
                { voiceAt part (obj.voice.getD 0).toNat with
                  notes := pre ++ [{ lastN with keys := some (lks ++ [k]) }] } } := by
  have hpv : (if 1 ≤ obj.voice.getD 0 then { part with numVoices := obj.voice.getD 0 + 1 }
      else part).voices = part.voices := by split <;> rfl
  have hne : (voiceAt part (obj.voice.getD 0).toNat).notes.isEmpty = false := by
    rw [hb]
    simp
  unfold processNote
  simp only [hpv, getD_padVoices, hchord, if_pos, hne]
  rw [if_neg (not_lt.mpr hw)]
  have hv0 : part.voices.getD (obj.voice.getD 0).toNat emptyVoice
      = voiceAt part (obj.voice.getD 0).toNat := rfl
  rw [hv0]
  rw [if_neg (by rw [hne]; simp)]
  rw [hb, List.getLast?_concat]
  simp only [hlk, hkeys, List.dropLast_concat]

/-- Claim C4: a note element carrying the `chord` marker decodes with the
chord flag set, and during the note loop of measure materialization a
chord-flagged object (its single pitch key `k`, its own voice's bucket
ending in a previously appended event with key list `lks`) produces no new
event: the step succeeds, the key `k` is appended to the key list of that
immediately preceding event, and every voice's event count is unchanged. -/
theorem C4_chord_merge :
    (∀ (elem : XmlNode) (attrs : Snapshot) (obj : NoteObj),
      "chord" ∈ elem.children.map XmlNode.name →
      parseNote elem attrs = .ok obj → obj.chord = true) ∧
    (∀ (part : MPart) (obj : NoteObj) (k : String) (pre : List NoteObj)
        (lastN : NoteObj) (lks : List String),
      obj.chord = true → obj.keys = some [k] → 0 ≤ obj.voice.getD 0 →
      (voiceAt part (obj.voice.getD 0).toNat).notes = pre ++ [lastN] →
      lastN.keys = some lks →
      exceptOk (processNote part obj) = true ∧
      (voiceAt (exceptGet (processNote part obj) part) (obj.voice.getD 0).toNat).notes =
        pre ++ [{ lastN with keys := some (lks ++ [k]) }] ∧
      ∀ u : Nat,
        (voiceAt (exceptGet (processNote part obj) part) u).notes.length =
          (voiceAt part u).notes.length) := by
  constructor
  · exact fun elem attrs obj hm h => parseNote_chord_flag elem attrs obj hm h
  · intro part obj k pre lastN lks hchord hkeys hw hb hlk
    have hok := processNote_chord_ok part obj k [] pre lastN lks hchord hkeys hw hb hlk
    rw [hok]
    have hlen : (obj.voice.getD 0).toNat
        < (padVoices part.voices ((obj.voice.getD 0).toNat + 1)).length := by
      rw [padVoices_length]
      omega
    refine ⟨rfl, ?_, ?_⟩
    · simp only [exceptGet, voiceAt]
      rw [getD_set_self_voice _ _ _ hlen]
    · intro u
      simp only [exceptGet]
      unfold voiceAt
      by_cases hu : u = (obj.voice.getD 0).toNat
      · subst hu
        rw [getD_set_self_voice _ _ _ hlen]
        have hbn : (part.voices.getD (obj.voice.getD 0).toNat emptyVoice).notes
            = pre ++ [lastN] := hb
        rw [hbn]
        simp
      · rw [getD_set_ne_voice _ _ _ _ hu, getD_padVoices]

theorem processNote_not_chordOOB (part : MPart) (obj : NoteObj)
    (hb : obj.chord = true → (voiceAt part (obj.voice.getD 0).toNat).notes ≠ []) :
    processNote part obj ≠ .error .chordOOB := by
  intro heq
  unfold processNote at heq
  simp only [] at heq
  have hv : (if 1 ≤ obj.voice.getD 0 then { part with numVoices := obj.voice.getD 0 + 1 }
      else part).voices = part.voices := by split <;> rfl
  rw [hv] at heq
  by_cases hneg : obj.voice.getD 0 < 0
  · rw [if_pos hneg] at heq
    injection heq with heq
    exact MXErr.noConfusion heq
  · rw [if_neg hneg, getD_padVoices] at heq
    by_cases hc : obj.chord = true
    · have hbne : (part.voices.getD (obj.voice.getD 0).toNat emptyVoice).notes ≠ [] := hb hc
      have hemp : (part.voices.getD (obj.voice.getD 0).toNat emptyVoice).notes.isEmpty
          = false := by
        rcases hl : (part.voices.getD (obj.voice.getD 0).toNat emptyVoice).notes with _ | ⟨a, l⟩
        · exact absurd hl hbne
        · rfl
      rw [if_pos hc, if_neg (by rw [hemp]; simp)] at heq
      obtain ⟨x, hx⟩ := Option.isSome_iff_exists.mp (List.getLast?_isSome.mpr hbne)
      rw [hx] at heq
      simp only [] at heq
      repeat' split at heq
      all_goals try exact Except.noConfusion heq
      all_goals injection heq with heq
      all_goals exact MXErr.noConfusion heq
    · rw [if_neg hc] at heq
      exact Except.noConfusion heq

theorem processNote_ok_mono (part part' : MPart) (obj : NoteObj)
    (h : processNote part obj = .ok part') (u : Nat)
    (hne : (voiceAt part u).notes ≠ []) : (voiceAt part' u).notes ≠ [] := by
  unfold processNote at h
  simp only [] at h
  repeat' split at h
  all_goals first
  | exact Except.noConfusion h
  | (injection h with h; subst h;
     by_cases hu : u = (obj.voice.getD 0).toNat
     · subst hu
       unfold voiceAt
       rw [getD_set_self_voice _ _ _ (by rw [padVoices_length]; omega)]
       simp
     · unfold voiceAt
       rw [getD_set_ne_voice _ _ _ _ hu, getD_padVoices]
       exact hne)

theorem processNote_ok_bucket (part part' : MPart) (obj : NoteObj)
    (h : processNote part obj = .ok part') :
    (voiceAt part' (obj.voice.getD 0).toNat).notes ≠ [] := by
  unfold processNote at h
  simp only [] at h
  repeat' split at h
  all_goals first
  | exact Except.noConfusion h
  | (injection h with h; subst h;
     unfold voiceAt;
     rw [getD_set_self_voice _ _ _ (by rw [padVoices_length]; omega)];
     simp)

theorem processNotes_no_OOB_aux (objs : List NoteObj) : ∀ part : MPart,
    (∀ i, i < objs.length → (objs.getD i {}).chord = true →
      (voiceAt part ((objs.getD i {}).voice.getD 0).toNat).notes ≠ [] ∨
      ∃ j, j < i ∧ (objs.getD j {}).chord = false ∧
        (objs.getD j {}).voice.getD 0 = (objs.getD i {}).voice.getD 0) →
    processNotes part objs ≠ .error .chordOOB := by
  induction objs with
  | nil =>
    intro part _ heq
    exact Except.noConfusion heq
  | cons o t ih =>
    intro part H heq
    unfold processNotes at heq
    rw [List.foldlM_cons] at heq
    rcases hs : processNote part o with e | p1 <;> rw [hs] at heq
    · rw [except_bind_error] at heq
      injection heq with heq
      subst heq
      refine processNote_not_chordOOB part o ?_ hs
      intro hc
      rcases H 0 (by simp) hc with hne | ⟨j, hj, _⟩
      · exact hne
      · omega
    · rw [except_bind_ok] at heq
      refine ih p1 ?_ heq
      intro i hi hci
      rcases H (i + 1) (by simpa using hi) hci with hne | ⟨j, hj, hjc, hjv⟩
      · exact Or.inl (processNote_ok_mono part p1 o hs _ hne)
      · rcases Nat.eq_zero_or_pos j with hj0 | hjpos
        · subst hj0
          left
          have hob := processNote_ok_bucket part p1 o hs
          have hjv' : (o.voice.getD 0) = ((t.getD i {}).voice.getD 0) := hjv
          rw [hjv'] at hob
          exact hob
        · right
          exact ⟨j - 1, by omega, by
            have : ((o :: t).getD j {}) = t.getD (j - 1) {} := by
              rcases j with _ | j'
              · omega
              · simp
            rw [this] at hjc hjv
            exact hjc, by
            have : ((o :: t).getD j {}) = t.getD (j - 1) {} := by
              rcases j with _ | j'
              · omega
              · simp
            rw [this] at hjv
            exact hjv⟩

/-- Claim C10: the chord-merge step indexes the last element of the chord
note's own voice bucket without an emptiness guard.  For every measure note
sequence in which each chord-flagged note is preceded, within its same
(raw) voice id, by an earlier non-chord note, the indexed preceding event
exists so the out-of-bounds access is unreachable — the loop never fails
with `chordOOB`; whereas a chord-flagged note that is the first event of
its voice bucket makes the unguarded access hit a nonexistent element. -/
theorem C10_chord_oob :
    (∀ objs : List NoteObj,
      (∀ i, i < objs.length → (objs.getD i {}).chord = true →
        ∃ j, j < i ∧ (objs.getD j {}).chord = false ∧
          (objs.getD j {}).voice.getD 0 = (objs.getD i {}).voice.getD 0) →
      processNotes freshPart objs ≠ .error .chordOOB) ∧
    processNotes freshPart [exFollowObj] = .error .chordOOB := by
  constructor
  · intro objs H
    exact processNotes_no_OOB_aux objs freshPart
      (fun i hi hc => Or.inr (H i hi hc))
  · rfl

theorem C10_chord_oob_witness :
    (∀ i, i < ([exLeadObj, exFollowObj] : List NoteObj).length →
      (([exLeadObj, exFollowObj] : List NoteObj).getD i {}).chord = true →
      ∃ j, j < i ∧ (([exLeadObj, exFollowObj] : List NoteObj).getD j {}).chord = false ∧
        (([exLeadObj, exFollowObj] : List NoteObj).getD j {}).voice.getD 0 =
          (([exLeadObj, exFollowObj] : List NoteObj).getD i {}).voice.getD 0) ∧
    processNotes freshPart [exLeadObj, exFollowObj] ≠ .error .chordOOB :=
  ⟨by decide, C10_chord_oob.1 [exLeadObj, exFollowObj] (by decide)⟩

theorem C4_chord_merge_witness :
    exChordDecoded.chord = true ∧
    exceptOk (processNote exChordPart exChordObj) = true ∧
    (voiceAt (exceptGet (processNote exChordPart exChordObj) exChordPart) 0).notes =
      [{ keys := some ["C/4", "E/4"] }] ∧
    ∀ u : Nat,
      (voiceAt (exceptGet (processNote exChordPart exChordObj) exChordPart) u).notes.length =
        (voiceAt exChordPart u).notes.length := by
  have h2 := C4_chord_merge.2 exChordPart exChordObj "E/4" []
    { keys := some ["C/4"] } ["C/4"] rfl rfl (by decide) rfl rfl
  exact ⟨C4_chord_merge.1 chordElem {} exChordDecoded (by decide) rfl,
    h2.1, h2.2.1, h2.2.2⟩
